import Mathlib

/-!
Verification of the jupyter-runner task-planning and execution core.

This file gives a shallow embedding, in Lean, of the functions of
jupyter_runner relevant to the task planner (get_tasks), the parameter
parser (_parse_parameters, _parse_parameter_file), the execution
coordinator (execute_notebook) and the dispatcher aggregation in cli.main,
together with models of the Python standard-library helpers they use
(os.path.basename, os.path.splitext, os.path.join, shlex tokenization in
POSIX mode, dict insertion/update, urllib scheme extraction).

Filesystem truth (path_exists, samefile) is abstracted as a World record,
since it depends on the machine; everything else is translated from the
source.
-/

set_option autoImplicit false

namespace JupyterRunner

/-! ## Python dictionaries as insertion-ordered association lists

Python dicts preserve insertion order; assigning to an existing key
replaces the value in place, assigning to a fresh key appends.
Keys here are `Option String` because `_parse_parameters` initialises
`current_key = None` and a value token seen before any key token is
stored under the key `None`. -/

/-- One Python dict assignment d[k] = v : replace in place if the key is
present, else append at the end. -/
def dictInsert {α : Type} [DecidableEq α] (d : List (α × String)) (k : α) (v : String) :
    List (α × String) :=
  if d.any (fun p => p.1 = k) then
    d.map (fun p => if p.1 = k then (k, v) else p)
  else
    d ++ [(k, v)]

/-- Python d[k] lookup (first, hence only, binding of k). -/
def dictGet {α : Type} [DecidableEq α] (d : List (α × String)) (k : α) : Option String :=
  (d.find? (fun p => p.1 = k)).map Prod.snd

/-- Python `k in d` membership test. -/
def dictMem {α : Type} [DecidableEq α] (d : List (α × String)) (k : α) : Bool :=
  d.any (fun p => p.1 = k)

/-- Python d.update(e) : assign every binding of e into d, in order. -/
def dictUpdate {α : Type} [DecidableEq α] (d e : List (α × String)) : List (α × String) :=
  e.foldl (fun acc p => dictInsert acc p.1 p.2) d

/-! ## Models of os.path helpers used by get_tasks

Paths are POSIX paths (sep = the slash, no altsep), as on the systems the
tool targets. -/

/-- os.path.basename: the part after the last slash. -/
def basename (p : String) : String :=
  String.mk (((p.data.reverse).takeWhile (fun c => c ≠ '/')).reverse)

/-- Helper for splitext: position (from the start) of the last occurrence
of c, or none. -/
def lastIndexOf (l : List Char) (c : Char) : Option Nat :=
  (l.reverse.findIdx? (fun x => x = c)).map (fun i => l.length - 1 - i)

/-- os.path.splitext(p))[0] : drop the extension, where the extension
starts at the last dot, provided that dot lies after the last slash and
the characters between the slash and the dot are not all dots (so that
a leading-dot name such as .bashrc keeps its dot). -/
def splitextRoot (p : String) : String :=
  let l := p.data
  let sepIndex : Int := match lastIndexOf l '/' with
    | some i => (i : Int)
    | none => -1
  match lastIndexOf l '.' with
  | none => p
  | some dotIndex =>
    if (dotIndex : Int) > sepIndex then
      -- check that some char strictly between sepIndex and dotIndex is not a dot
      let nameStart := (sepIndex + 1).toNat
      if ((l.drop nameStart).take (dotIndex - nameStart)).any (fun c => c ≠ '.') then
        String.mk (l.take dotIndex)
      else p
    else p

/-- os.path.join for two components (POSIX): an absolute second component
wins; otherwise glue with a slash unless the first part is empty or
already ends in a slash. -/
def joinPath (a b : String) : String :=
  if b.data.head? = some '/' then b
  else if a = "" ∨ a.data.getLast? = some '/' then a ++ b
  else a ++ "/" ++ b

/-! ## The output-format → extension table (constant.py) -/

/-- MAP_OUTPUT_EXTENSION from constant.py, as a partial lookup:
none models a KeyError on an unknown format. -/
def MAP_OUTPUT_EXTENSION (fmt : String) : Option String :=
  if fmt = "asciidoc" then some ""
  else if fmt = "html" then some "html"
  else if fmt = "latex" then some "tex"
  else if fmt = "markdown" then some "md"
  else if fmt = "notebook" then some "ipynb"
  else if fmt = "pdf" then some "pdf"
  else if fmt = "python" then some "py"
  else if fmt = "rst" then some "rst"
  else if fmt = "script" then some ""
  else if fmt = "slides" then some ""
  else none

/-! ## Model of shlex tokenization (POSIX mode)

_parse_parameters tokenizes with shlex.shlex(text, posix=True) and default
settings (whitespace_split off). The model below covers inputs free of the
escape character (backslash) and of the comment character: alphanumerics
and underscore are word characters, double and single quotes delimit
quoted runs that are glued into the surrounding word, whitespace separates
tokens, and any other character (such as the equals sign) is emitted as a
single-character token of its own. An unterminated quote is a ValueError
in shlex, modelled as none. -/

/-- The single-quote character. -/
def squote : Char := Char.ofNat 39

def isWordChar (c : Char) : Bool := c.isAlphanum || c == '_'

def isSpaceChar (c : Char) : Bool := c == ' ' || c == '\t' || c == '\r' || c == '\n'

def isQuoteChar (c : Char) : Bool := c == '"' || c == squote

/-- Lexer state: between tokens, inside a word (accumulator reversed), or
inside a quoted run started by q within a word. -/
inductive LexState : Type
  | ground : LexState
  | word : List Char → LexState
  | quoted : Char → List Char → LexState

/-- One shlex pass over the characters. Punctuation met inside a word ends
the word and is emitted as the next token (shlex pushes it back and
re-reads it from the ground state). -/
def shlexCore : List Char → LexState → Option (List String)
  | [], .ground => some []
  | [], .word acc => some [String.mk acc.reverse]
  | [], .quoted _ _ => none
  | c :: cs, .ground =>
    if isSpaceChar c then shlexCore cs .ground
    else if isQuoteChar c then shlexCore cs (.quoted c [])
    else if isWordChar c then shlexCore cs (.word [c])
    else (shlexCore cs .ground).map (fun ts => String.mk [c] :: ts)
  | c :: cs, .word acc =>
    if isSpaceChar c then (shlexCore cs .ground).map (fun ts => String.mk acc.reverse :: ts)
    else if isQuoteChar c then shlexCore cs (.quoted c acc)
    else if isWordChar c then shlexCore cs (.word (c :: acc))
    else (shlexCore cs .ground).map
      (fun ts => String.mk acc.reverse :: String.mk [c] :: ts)
  | c :: cs, .quoted q acc =>
    if c == q then shlexCore cs (.word acc)
    else shlexCore cs (.quoted q (c :: acc))

/-- shlex.shlex(text, posix=True) as a token list (none = ValueError). -/
def shlexTokens (text : String) : Option (List String) :=
  shlexCore text.data .ground

/-! ## _parse_parameters (execute.py lines 170-195) -/

/-- The loop state of _parse_parameters: the is_key flag, the last key
token seen (None before the first one), and the dict built so far. -/
structure ParseState where
  is_key : Bool
  current_key : Option String
  environ : List (Option String × String)
deriving DecidableEq

def parseInit : ParseState := ⟨true, none, []⟩

/-- The body of the token loop of _parse_parameters: an equals sign flips
is_key; a token in key position is remembered; a token in value position
is assigned under the remembered key and the state returns to key
position. -/
def parseStep (st : ParseState) (token : String) : ParseState :=
  if token = "=" then { st with is_key := !st.is_key }
  else if st.is_key then { st with current_key := some token }
  else { is_key := true, current_key := st.current_key,
         environ := dictInsert st.environ st.current_key token }

/-- The dict produced by running the _parse_parameters loop on a token
list. -/
def parseTokens (ts : List String) : List (Option String × String) :=
  (ts.foldl parseStep parseInit).environ

/-- _parse_parameters: tokenize the line, then run the key/value loop. -/
def parse_parameters (text : String) : Option (List (Option String × String)) :=
  (shlexTokens text).map parseTokens

/-! ## _parse_parameter_file (execute.py lines 198-216)

The file is modelled by its readlines output: the list of its lines. -/

/-- _parse_parameter_file: None means run once with no parameters; a file
gives one dict per line, in order (a parse failure on any line aborts the
whole run). -/
def parse_parameter_file : Option (List String) → Option (List (List (Option String × String)))
  | none => some [[]]
  | some lines => lines.mapM parse_parameters

/-! ## get_tasks (execute.py lines 23-90) -/

/-- One task descriptor, the dict appended by get_tasks. -/
structure Task where
  notebook : String
  parameters : List (Option String × String)
  output_file : String
  debug : Bool
  overwrite : Bool
  output_format : String
  timeout : String
  allow_errors : Bool
  hide_input : Bool
  locked_wait : Nat
deriving DecidableEq

/-- The loop body of get_tasks for one (param_id, params, notebook)
triple: suffix selection, extension lookup (none models the KeyError on
an unknown format), output name and path. -/
def mkTask (parameter_file : Option (List String)) (output_dir : String)
    (debug overwrite : Bool) (output_format timeout : String)
    (allow_errors hide_input : Bool) (locked_wait : Nat)
    (param_id : Nat) (params : List (Option String × String)) (notebook : String) :
    Option Task := do
  let file_suffix :=
    if parameter_file.isNone then ""
    else match dictGet params (some "JUPYTER_OUTPUT_SUFFIX") with
      | some v => "_" ++ v
      | none => "_" ++ toString (param_id + 1)
  let ext ← MAP_OUTPUT_EXTENSION output_format
  let extension := if ext = "" then ext else "." ++ ext
  let output_name := splitextRoot (basename notebook) ++ file_suffix ++ extension
  let output_file := joinPath output_dir output_name
  some { notebook := notebook, parameters := params, output_file := output_file,
         debug := debug, overwrite := overwrite, output_format := output_format,
         timeout := timeout, allow_errors := allow_errors, hide_input := hide_input,
         locked_wait := locked_wait }

/-- get_tasks: parse the parameter file, then emit one task per
(parameter set, notebook) pair, parameter sets outer, notebooks inner. -/
def get_tasks (parameter_file : Option (List String)) (notebooks : List String)
    (output_dir : String) (debug overwrite : Bool) (output_format timeout : String)
    (allow_errors hide_input : Bool) (locked_wait : Nat) : Option (List Task) := do
  let parameters ← parse_parameter_file parameter_file
  (parameters.enum.flatMap (fun pi => notebooks.map (fun nb => (pi, nb)))).mapM
    (fun x => mkTask parameter_file output_dir debug overwrite output_format timeout
      allow_errors hide_input locked_wait x.1.1 x.1.2 x.2)

/-! ## is_local_path (file_handler.py lines 22-29)

urlparse scheme extraction: the text before the first colon is the
scheme, lowercased, when it is nonempty, starts with a letter and is made
of letters, digits, plus, minus and dot; otherwise the scheme is empty. -/

def isSchemeChar (c : Char) : Bool := c.isAlphanum || c == '+' || c == '-' || c == '.'

/-- urllib.parse.urlparse(url).scheme. -/
def urlScheme (url : String) : String :=
  let l := url.data
  match l.findIdx? (fun c => c == ':') with
  | none => ""
  | some i =>
    let pre := l.take i
    match pre with
    | [] => ""
    | c :: _ =>
      if c.isAlpha && pre.all isSchemeChar then String.mk (pre.map Char.toLower)
      else ""

/-- is_local_path: a path whose URL scheme is empty or file. -/
def is_local_path (path : String) : Bool :=
  urlScheme path = "" || urlScheme path = "file"

/-! ## execute_notebook (execute.py lines 93-167)

Filesystem truth and staging are a World: path_exists and samefile are
the machine state, stage models the LocalFile context manager (the local
filename a path is staged to: realpath for a local path, a temporary copy
for a remote one). os_environ is the process environment; environments
share the Option-String-keyed dict representation of parameter sets.

The outcome of a call is either a skip (destination present, overwrite
off: return 0, engine never started, destination untouched) or an engine
run, recorded with whether the existing destination was removed first,
whether in-place mode was chosen, the full command line, and the
environment the subprocess receives. The code writes
env = os.environ.update(parameters), which mutates os.environ in place
and leaves env = None, so subprocess.call inherits the updated
os.environ: the effective environment is os.environ overlaid with the
parameters. -/

structure World where
  path_exists : String → Bool
  samefile : String → String → Bool
  stage : String → String
  os_environ : List (Option String × String)

structure EngineCall where
  removed_existing : Bool
  in_place : Bool
  cmd : List String
  env : List (Option String × String)
deriving DecidableEq

inductive ExecOutcome : Type
  | skip : ExecOutcome
  | run : EngineCall → ExecOutcome
deriving DecidableEq

/-- The command line built at execute.py lines 135-155, from the staged
notebook and output names. -/
def build_cmd (in_place : Bool) (staged_notebook staged_output : String)
    (debug : Bool) (output_format timeout : String)
    (allow_errors hide_input : Bool) : List String :=
  ["jupyter", "nbconvert", "--execute", "--output", staged_output, "--to", output_format]
    ++ (if ¬(output_format = "python" ∨ output_format = "script") then
          ["--ExecutePreprocessor.timeout=" ++ timeout] else [])
    ++ (if debug then ["--debug"] else [])
    ++ (if hide_input then ["--TemplateExporter.exclude_input=True"] else [])
    ++ (if in_place then ["--inplace"] else [])
    ++ (if allow_errors then ["--allow-errors"] else [])
    ++ [staged_notebook]

/-- execute_notebook: skip / in-place / remove policy, then the engine
call. -/
def execute_notebook (w : World) (notebook : String)
    (parameters : List (Option String × String)) (output_file : String)
    (debug overwrite : Bool) (output_format timeout : String)
    (allow_errors hide_input : Bool) : ExecOutcome :=
  let launch := fun (in_place removed : Bool) =>
    ExecOutcome.run
      { removed_existing := removed, in_place := in_place,
        cmd := build_cmd in_place (w.stage notebook) (w.stage output_file)
          debug output_format timeout allow_errors hide_input,
        env := dictUpdate w.os_environ parameters }
  if w.path_exists output_file then
    if !overwrite then .skip
    else if is_local_path output_file && is_local_path notebook
        && w.samefile notebook output_file then
      launch true false
    else
      launch false true
  else
    launch false false

/-- The status code execute_notebook returns, given the engine (the
subprocess.call collaborator) as a function of command and environment. -/
def execute_notebook_ret (engine : List String → List (Option String × String) → Int) :
    ExecOutcome → Int
  | .skip => 0
  | .run c => engine c.cmd c.env

/-- Whether the engine is started at all. -/
def engine_invoked : ExecOutcome → Bool
  | .skip => false
  | .run _ => true

/-- Whether the existing destination file is removed before the run. -/
def removes_existing_output : ExecOutcome → Bool
  | .skip => false
  | .run c => c.removed_existing

/-- Whether in-place mode was selected. -/
def chose_in_place : ExecOutcome → Bool
  | .skip => false
  | .run c => c.in_place

/-! ## Dispatcher aggregation (cli.py line 181) -/

/-- max(ret_codes) if ret_codes else 0. -/
def overall_status (ret_codes : List Int) : Int :=
  match ret_codes with
  | [] => 0
  | c :: cs => cs.foldl max c

/-! ## Auxiliary definitions for the theorems below -/

/-- The token stream a well-formed parameter line denotes: for each pair,
a key token, the equals token, a value token. -/
def pairTokens (ps : List (String × String)) : List String :=
  ps.flatMap (fun kv => [kv.1, "=", kv.2])

/-- The task get_tasks builds for one (param_id, params, notebook) triple
once the extension lookup has succeeded with ext. -/
def plannedTask (parameter_file : Option (List String)) (output_dir : String)
    (debug overwrite : Bool) (output_format timeout : String)
    (allow_errors hide_input : Bool) (locked_wait : Nat) (ext : String)
    (param_id : Nat) (params : List (Option String × String)) (notebook : String) : Task :=
  { notebook := notebook, parameters := params,
    output_file := joinPath output_dir
      (splitextRoot (basename notebook)
        ++ (if parameter_file.isNone then ""
            else match dictGet params (some "JUPYTER_OUTPUT_SUFFIX") with
              | some v => "_" ++ v
              | none => "_" ++ toString (param_id + 1))
        ++ (if ext = "" then ext else "." ++ ext)),
    debug := debug, overwrite := overwrite, output_format := output_format,
    timeout := timeout, allow_errors := allow_errors, hide_input := hide_input,
    locked_wait := locked_wait }

/-- The (parameter set, notebook) pairs get_tasks iterates over, parameter
sets outer, notebooks inner. -/
def taskPairs (pss : List (List (Option String × String))) (notebooks : List String) :
    List ((Nat × List (Option String × String)) × String) :=
  pss.enum.flatMap (fun pi => notebooks.map (fun nb => (pi, nb)))

/-- Written from the words of the spec (section 4.2 step 1), for comparison
with the planner: suffix selection. -/
def specSuffix (has_parameter_file : Bool) (params : List (Option String × String))
    (param_index : Nat) : String :=
  if has_parameter_file = false then ""
  else match dictGet params (some "JUPYTER_OUTPUT_SUFFIX") with
    | some v => "_" ++ v
    | none => "_" ++ toString param_index

/-- Written from the words of the spec (section 4.2 step 2), for comparison
with the planner: extension selection. -/
def specExtension (output_format : String) : Option String :=
  (MAP_OUTPUT_EXTENSION output_format).map (fun e => if e = "" then "" else "." ++ e)

/-- Written from the words of the spec (section 4.2 step 3), for comparison
with the planner: output path derivation. -/
def specOutputPath (output_dir notebook sfx ext : String) : String :=
  joinPath output_dir (splitextRoot (basename notebook) ++ sfx ++ ext)

/-- A machine on which the destination file exists and source and
destination are the same file; used to instantiate theorems. -/
def demoWorld : World :=
  { path_exists := fun _ => true, samefile := fun _ _ => true,
    stage := fun p => p, os_environ := [(some "PATH", "/usr/bin")] }

/-- A machine on which no destination exists yet; used to instantiate
theorems. -/
def absentWorld : World :=
  { path_exists := fun _ => false, samefile := fun _ _ => false,
    stage := fun p => p, os_environ := [(some "HOME", "/root"), (some "LANG", "C")] }

/-! # Theorems

First the lemmas about the dict model, then the claim theorems in order. -/

theorem dictGet_dictInsert_self {α : Type} [DecidableEq α] (d : List (α × String)) (k : α)
    (v : String) : dictGet (dictInsert d k v) k = some v := by
  induction d with
  | nil => simp [dictInsert, dictGet]
  | cons p ps ih =>
    by_cases hp : p.1 = k
    · simp [dictInsert, dictGet, hp]
    · simp only [dictInsert, List.any_cons] at *
      by_cases hmem : ps.any (fun q => decide (q.1 = k))
      · simp [hp, hmem, dictGet, List.find?] at *
        simpa [dictInsert, hmem, dictGet] using ih
      · simp [hp, hmem, dictGet, List.find?] at *
        simpa [dictInsert, hmem, dictGet] using ih

theorem find?_replace {α : Type} [DecidableEq α] (d : List (α × String)) (k k2 : α) (v : String)
    (h : k2 ≠ k) :
    (d.map (fun p => if p.1 = k then (k, v) else p)).find? (fun p => p.1 = k2)
      = d.find? (fun p => p.1 = k2) := by
  induction d with
  | nil => rfl
  | cons p ps ih =>
    by_cases hp : p.1 = k
    · rw [List.map_cons]
      simp only [hp, if_pos]
      rw [List.find?_cons_of_neg _ (by simp [Ne.symm h]),
          List.find?_cons_of_neg _ (by simp [hp, Ne.symm h])]
      exact ih
    · rw [List.map_cons]
      simp only [hp, if_neg, if_false]
      by_cases hp2 : p.1 = k2
      · rw [List.find?_cons_of_pos _ (by simp [hp2]), List.find?_cons_of_pos _ (by simp [hp2])]
      · rw [List.find?_cons_of_neg _ (by simp [hp2]), List.find?_cons_of_neg _ (by simp [hp2])]
        exact ih

theorem find?_append_single {α : Type} [DecidableEq α] (d : List (α × String)) (k k2 : α)
    (v : String) (h : k2 ≠ k) :
    (d ++ [(k, v)]).find? (fun p => p.1 = k2) = d.find? (fun p => p.1 = k2) := by
  induction d with
  | nil =>
    simp only [List.nil_append]
    rw [List.find?_cons_of_neg _ (by simp [Ne.symm h])]
  | cons p ps ih =>
    by_cases hp2 : p.1 = k2
    · rw [List.cons_append, List.find?_cons_of_pos _ (by simp [hp2]),
          List.find?_cons_of_pos _ (by simp [hp2])]
    · rw [List.cons_append, List.find?_cons_of_neg _ (by simp [hp2]),
          List.find?_cons_of_neg _ (by simp [hp2])]
      exact ih

theorem dictGet_dictInsert_other {α : Type} [DecidableEq α] (d : List (α × String)) (k k2 : α)
    (v : String) (h : k2 ≠ k) : dictGet (dictInsert d k v) k2 = dictGet d k2 := by
  unfold dictInsert dictGet
  by_cases hmem : d.any (fun p => p.1 = k)
  · simp only [hmem, if_pos]
    rw [find?_replace d k k2 v h]
  · simp only [hmem, Bool.false_eq_true, if_false]
    rw [find?_append_single d k k2 v h]

theorem dictMem_eq_false_iff {α : Type} [DecidableEq α] (d : List (α × String)) (k : α) :
    dictMem d k = false ↔ ∀ v, (k, v) ∉ d := by
  constructor
  · intro h v hv
    have : d.any (fun p => p.1 = k) = true := by
      refine List.any_eq_true.mpr ⟨(k, v), hv, by simp⟩
    rw [dictMem] at h
    rw [h] at this
    cases this
  · intro h
    by_contra hne
    have : dictMem d k = true := by
      cases hb : dictMem d k
      · exact absurd hb hne
      · rfl
    rcases List.any_eq_true.mp this with ⟨p, hp, hpk⟩
    have hk : p.1 = k := by simpa using hpk
    exact h p.2 (by rw [← hk]; exact hp)

theorem dictUpdate_cons {α : Type} [DecidableEq α] (d : List (α × String)) (p : α × String)
    (ps : List (α × String)) :
    dictUpdate d (p :: ps) = dictUpdate (dictInsert d p.1 p.2) ps := rfl

theorem dictGet_dictUpdate_not_mem {α : Type} [DecidableEq α] (d e : List (α × String)) (k : α)
    (h : dictMem e k = false) : dictGet (dictUpdate d e) k = dictGet d k := by
  induction e generalizing d with
  | nil => rfl
  | cons p ps ih =>
    have hpk : p.1 ≠ k := by
      intro hk
      have : dictMem (p :: ps) k = true :=
        List.any_eq_true.mpr ⟨p, List.mem_cons_self p ps, by simp [hk]⟩
      rw [h] at this; cases this
    have hps : dictMem ps k = false := by
      cases hb : dictMem ps k
      · rfl
      · rcases List.any_eq_true.mp hb with ⟨q, hq, hqk⟩
        have : dictMem (p :: ps) k = true :=
          List.any_eq_true.mpr ⟨q, List.mem_cons_of_mem p hq, hqk⟩
        rw [h] at this; cases this
    rw [dictUpdate_cons, ih _ hps, dictGet_dictInsert_other _ _ _ _ (Ne.symm hpk)]

theorem dictGet_dictUpdate_mem {α : Type} [DecidableEq α] (d e : List (α × String)) (k : α)
    (v : String) (hnodup : (e.map Prod.fst).Nodup) (hmem : (k, v) ∈ e) :
    dictGet (dictUpdate d e) k = some v := by
  induction e generalizing d with
  | nil => cases hmem
  | cons p ps ih =>
    rcases List.mem_cons.mp hmem with heq | hmem2
    · have hk : p.1 = k := by rw [← heq]
      have hknotin : k ∉ ps.map Prod.fst := by
        rw [← hk]
        exact (List.nodup_cons.mp (by simpa using hnodup)).1
      have hps : dictMem ps k = false := by
        cases hb : dictMem ps k
        · rfl
        · rcases List.any_eq_true.mp hb with ⟨q, hq, hqk⟩
          have : q.1 = k := by simpa using hqk
          exact absurd (this ▸ List.mem_map_of_mem Prod.fst hq) hknotin
      rw [dictUpdate_cons, dictGet_dictUpdate_not_mem _ _ _ hps, ← heq]
      exact dictGet_dictInsert_self d k v
    · have htail : (ps.map Prod.fst).Nodup := by
        rw [List.map_cons] at hnodup
        exact (List.nodup_cons.mp hnodup).2
      exact ih _ htail hmem2

theorem exec_run_env (w : World) (notebook : String)
    (parameters : List (Option String × String)) (output_file : String)
    (debug overwrite : Bool) (output_format timeout : String)
    (allow_errors hide_input : Bool) (c : EngineCall)
    (h : execute_notebook w notebook parameters output_file debug overwrite
      output_format timeout allow_errors hide_input = .run c) :
    c.env = dictUpdate w.os_environ parameters := by
  unfold execute_notebook at h
  split at h
  · split at h
    · exact absurd h (by simp)
    · split at h
      · cases h; rfl
      · cases h; rfl
  · cases h; rfl

/-- Claim C5: when the destination path already exists and the overwrite
flag is false, execute_notebook returns 0 and skips: the engine is never
invoked and the existing destination file is not removed. -/
theorem c5_skip (w : World) (notebook : String)
    (parameters : List (Option String × String)) (output_file : String)
    (debug : Bool) (output_format timeout : String)
    (allow_errors hide_input : Bool)
    (hex : w.path_exists output_file = true) :
    execute_notebook w notebook parameters output_file debug false
      output_format timeout allow_errors hide_input = .skip ∧
    (∀ engine, execute_notebook_ret engine (execute_notebook w notebook parameters
      output_file debug false output_format timeout allow_errors hide_input) = 0) ∧
    engine_invoked (execute_notebook w notebook parameters output_file debug false
      output_format timeout allow_errors hide_input) = false ∧
    removes_existing_output (execute_notebook w notebook parameters output_file debug false
      output_format timeout allow_errors hide_input) = false := by
  have h : execute_notebook w notebook parameters output_file debug false
      output_format timeout allow_errors hide_input = .skip := by
    unfold execute_notebook
    simp [hex]
  exact ⟨h, fun engine => by rw [h]; rfl, by rw [h]; rfl, by rw [h]; rfl⟩

/-- Witness for C5 on a concrete machine and task. -/
theorem c5_skip_witness :
    execute_notebook demoWorld "a.ipynb" [] "out.html" false false "html" "-1" false false
      = .skip :=
  (c5_skip demoWorld "a.ipynb" [] "out.html" false "html" "-1" false false rfl).1

/-- Claim C6: when the destination exists and overwrite is true, in-place
mode is chosen, with no prior removal, exactly when source and destination
are local paths naming the same file; otherwise the existing destination
is removed first; and in-place mode is never chosen unless both paths are
local. -/
theorem c6_overwrite_policy (w : World) (notebook : String)
    (parameters : List (Option String × String)) (output_file : String)
    (debug : Bool) (output_format timeout : String)
    (allow_errors hide_input : Bool)
    (hex : w.path_exists output_file = true) :
    ((is_local_path output_file && is_local_path notebook
        && w.samefile notebook output_file) = true →
      chose_in_place (execute_notebook w notebook parameters output_file debug true
        output_format timeout allow_errors hide_input) = true ∧
      removes_existing_output (execute_notebook w notebook parameters output_file debug true
        output_format timeout allow_errors hide_input) = false) ∧
    ((is_local_path output_file && is_local_path notebook
        && w.samefile notebook output_file) = false →
      chose_in_place (execute_notebook w notebook parameters output_file debug true
        output_format timeout allow_errors hide_input) = false ∧
      removes_existing_output (execute_notebook w notebook parameters output_file debug true
        output_format timeout allow_errors hide_input) = true) ∧
    (chose_in_place (execute_notebook w notebook parameters output_file debug true
        output_format timeout allow_errors hide_input) = true →
      is_local_path output_file = true ∧ is_local_path notebook = true) := by
  refine ⟨?_, ?_, ?_⟩
  · intro hc
    constructor <;> simp [execute_notebook, hex, hc, chose_in_place, removes_existing_output]
  · intro hc
    constructor <;> simp [execute_notebook, hex, hc, chose_in_place, removes_existing_output]
  · intro hc
    by_cases hl : (is_local_path output_file && is_local_path notebook
        && w.samefile notebook output_file) = true
    · rcases Bool.and_eq_true_iff.mp (Bool.and_eq_true_iff.mp hl).1 with ⟨h1, h2⟩
      exact ⟨h1, h2⟩
    · exfalso
      have hl2 : (is_local_path output_file && is_local_path notebook
          && w.samefile notebook output_file) = false := by
        cases hb : (is_local_path output_file && is_local_path notebook
            && w.samefile notebook output_file)
        · rfl
        · exact absurd hb hl
      simp [execute_notebook, hex, hl2, chose_in_place] at hc

/-- Witness for C6 on a concrete machine where source and destination are
the same local file. -/
theorem c6_overwrite_policy_witness :
    chose_in_place (execute_notebook demoWorld "a.ipynb" [] "out.html" false true
      "html" "-1" false false) = true ∧
    removes_existing_output (execute_notebook demoWorld "a.ipynb" [] "out.html" false true
      "html" "-1" false false) = false :=
  (c6_overwrite_policy demoWorld "a.ipynb" [] "out.html" false "html" "-1" false false
    rfl).1 (by decide)

/-- Claim C7: the environment the engine invocation receives is the process
environment overlaid with the ParameterSet: a key absent from the
ParameterSet keeps its inherited value, and a key present in the
ParameterSet takes the value of the ParameterSet. -/
theorem c7_env_overlay (w : World) (notebook : String)
    (parameters : List (Option String × String)) (output_file : String)
    (debug overwrite : Bool) (output_format timeout : String)
    (allow_errors hide_input : Bool) (c : EngineCall)
    (h : execute_notebook w notebook parameters output_file debug overwrite
      output_format timeout allow_errors hide_input = .run c)
    (hnodup : (parameters.map Prod.fst).Nodup) :
    (∀ k, dictMem parameters k = false → dictGet c.env k = dictGet w.os_environ k) ∧
    (∀ k v, (k, v) ∈ parameters → dictGet c.env k = some v) := by
  have henv := exec_run_env w notebook parameters output_file debug overwrite
    output_format timeout allow_errors hide_input c h
  rw [henv]
  exact ⟨fun k hk => dictGet_dictUpdate_not_mem _ _ _ hk,
         fun k v hkv => dictGet_dictUpdate_mem _ _ _ _ hnodup hkv⟩

/-- Witness for C7: on a concrete machine, an inherited variable survives
and a ParameterSet variable is added. -/
theorem c7_env_overlay_witness :
    dictGet (dictUpdate absentWorld.os_environ [(some "VAR1", "VAL1")]) (some "VAR1")
      = some "VAL1" ∧
    dictGet (dictUpdate absentWorld.os_environ [(some "VAR1", "VAL1")]) (some "HOME")
      = dictGet absentWorld.os_environ (some "HOME") :=
  have r := c7_env_overlay absentWorld "a.ipynb" [(some "VAR1", "VAL1")] "out.html"
    false true "html" "-1" false false
    { removed_existing := false, in_place := false,
      cmd := build_cmd false "a.ipynb" "out.html" false "html" "-1" false false,
      env := dictUpdate absentWorld.os_environ [(some "VAR1", "VAL1")] }
    rfl (by decide)
  ⟨r.2 (some "VAR1") "VAL1" (by decide), r.1 (some "HOME") (by decide)⟩

theorem timeout_flag_ne_of_len (t s : String) (hs : s.length < 30) :
    ("--ExecutePreprocessor.timeout=" ++ t) ≠ s := by
  intro h
  have hl := congrArg String.length h
  rw [String.length_append] at hl
  have h30 : ("--ExecutePreprocessor.timeout=" : String).length = 30 := by decide
  omega

theorem timeout_flag_ne_exclude (t : String) :
    ("--ExecutePreprocessor.timeout=" ++ t) ≠ "--TemplateExporter.exclude_input=True" := by
  intro h
  have hd := congrArg String.data h
  rw [String.data_append] at hd
  have h3 := congrArg (List.take 3) hd
  rw [List.take_append_of_le_length (by decide)] at h3
  exact absurd h3 (by decide)

theorem exec_run_cmd (w : World) (notebook : String)
    (parameters : List (Option String × String)) (output_file : String)
    (debug overwrite : Bool) (output_format timeout : String)
    (allow_errors hide_input : Bool) (c : EngineCall)
    (h : execute_notebook w notebook parameters output_file debug overwrite
      output_format timeout allow_errors hide_input = .run c) :
    c.cmd = build_cmd c.in_place (w.stage notebook) (w.stage output_file)
      debug output_format timeout allow_errors hide_input := by
  unfold execute_notebook at h
  split at h
  · split at h
    · exact absurd h (by simp)
    · split at h
      · cases h; rfl
      · cases h; rfl
  · cases h; rfl

theorem timeout_flag_not_mem_build (t staged_nb staged_out fmt : String)
    (debug allow_errors hide_input in_place : Bool)
    (hfmt : fmt = "python" ∨ fmt = "script")
    (h1 : staged_nb ≠ "--ExecutePreprocessor.timeout=" ++ t)
    (h2 : staged_out ≠ "--ExecutePreprocessor.timeout=" ++ t) :
    ("--ExecutePreprocessor.timeout=" ++ t) ∉
      build_cmd in_place staged_nb staged_out debug fmt t allow_errors hide_input := by
  have h1s := Ne.symm h1
  have h2s := Ne.symm h2
  have e1 := timeout_flag_ne_of_len t "jupyter" (by decide)
  have e2 := timeout_flag_ne_of_len t "nbconvert" (by decide)
  have e3 := timeout_flag_ne_of_len t "--execute" (by decide)
  have e4 := timeout_flag_ne_of_len t "--output" (by decide)
  have e5 := timeout_flag_ne_of_len t "--to" (by decide)
  have e6 := timeout_flag_ne_of_len t "python" (by decide)
  have e7 := timeout_flag_ne_of_len t "script" (by decide)
  have e8 := timeout_flag_ne_of_len t "--debug" (by decide)
  have e9 := timeout_flag_ne_of_len t "--inplace" (by decide)
  have e10 := timeout_flag_ne_of_len t "--allow-errors" (by decide)
  have e11 := timeout_flag_ne_exclude t
  intro hmem
  unfold build_cmd at hmem
  rcases hfmt with hf | hf <;> subst hf <;>
    cases debug <;> cases hide_input <;> cases allow_errors <;> cases in_place <;>
      simp_all

/-- Claim C8: every engine invocation starts with the execute flag, the
output path and the target format, appends the numeric timeout flag
exactly when the format is not one of the non-executing formats python
and script, appends the debug, hide-input, in-place and allow-errors
flags exactly when their conditions hold, and ends with the staged source
notebook path. -/
theorem c8_cmd (w : World) (notebook : String)
    (parameters : List (Option String × String)) (output_file : String)
    (debug overwrite : Bool) (output_format timeout : String)
    (allow_errors hide_input : Bool) (c : EngineCall)
    (h : execute_notebook w notebook parameters output_file debug overwrite
      output_format timeout allow_errors hide_input = .run c) :
    c.cmd = ["jupyter", "nbconvert", "--execute", "--output", w.stage output_file,
        "--to", output_format]
      ++ (if ¬(output_format = "python" ∨ output_format = "script") then
            ["--ExecutePreprocessor.timeout=" ++ timeout] else [])
      ++ (if debug then ["--debug"] else [])
      ++ (if hide_input then ["--TemplateExporter.exclude_input=True"] else [])
      ++ (if c.in_place then ["--inplace"] else [])
      ++ (if allow_errors then ["--allow-errors"] else [])
      ++ [w.stage notebook] ∧
    c.cmd.getLast? = some (w.stage notebook) ∧
    "--execute" ∈ c.cmd ∧ w.stage output_file ∈ c.cmd ∧ output_format ∈ c.cmd ∧
    (¬(output_format = "python" ∨ output_format = "script") →
      ("--ExecutePreprocessor.timeout=" ++ timeout) ∈ c.cmd) ∧
    ((output_format = "python" ∨ output_format = "script") →
      w.stage notebook ≠ "--ExecutePreprocessor.timeout=" ++ timeout →
      w.stage output_file ≠ "--ExecutePreprocessor.timeout=" ++ timeout →
      ("--ExecutePreprocessor.timeout=" ++ timeout) ∉ c.cmd) := by
  have hcmd := exec_run_cmd w notebook parameters output_file debug overwrite
    output_format timeout allow_errors hide_input c h
  refine ⟨by rw [hcmd]; rfl, ?_, ?_, ?_, ?_, ?_, ?_⟩
  · rw [hcmd]
    unfold build_cmd
    rw [List.getLast?_concat]
  · rw [hcmd]; unfold build_cmd; simp
  · rw [hcmd]; unfold build_cmd; simp
  · rw [hcmd]; unfold build_cmd; simp
  · intro hfmt
    rw [hcmd]; unfold build_cmd
    simp [hfmt]
  · intro hfmt hn ho
    rw [hcmd]
    exact timeout_flag_not_mem_build timeout (w.stage notebook) (w.stage output_file)
      output_format debug allow_errors hide_input c.in_place hfmt hn ho

/-- Witness for C8 on a concrete run: the execute flag is present and the
notebook path comes last. -/
theorem c8_cmd_witness :
    "--execute" ∈ build_cmd false "a.ipynb" "out.html" false "html" "-1" false false ∧
    (build_cmd false "a.ipynb" "out.html" false "html" "-1" false false).getLast?
      = some "a.ipynb" :=
  have r := c8_cmd absentWorld "a.ipynb" [] "out.html" false true "html" "-1" false false
    { removed_existing := false, in_place := false,
      cmd := build_cmd false "a.ipynb" "out.html" false "html" "-1" false false,
      env := dictUpdate absentWorld.os_environ [] }
    rfl
  ⟨r.2.2.1, r.2.1⟩

theorem le_foldl_max (cs : List Int) (c : Int) : c ≤ cs.foldl max c := by
  induction cs generalizing c with
  | nil => simp
  | cons d ds ih => exact le_trans (le_max_left c d) (ih (max c d))

theorem mem_le_foldl_max (cs : List Int) (c x : Int) (hx : x ∈ cs) : x ≤ cs.foldl max c := by
  induction cs generalizing c with
  | nil => cases hx
  | cons d ds ih =>
    rcases List.mem_cons.mp hx with rfl | hmem
    · exact le_trans (le_max_right c x) (le_foldl_max ds (max c x))
    · exact ih (max c d) hmem

theorem foldl_max_mem (cs : List Int) (c : Int) : cs.foldl max c = c ∨ cs.foldl max c ∈ cs := by
  induction cs generalizing c with
  | nil => left; rfl
  | cons d ds ih =>
    simp only [List.foldl_cons]
    rcases ih (max c d) with h | h
    · rw [h]
      rcases max_choice c d with h2 | h2
      · left; exact h2
      · right; rw [h2]; exact List.mem_cons_self d ds
    · right; exact List.mem_cons_of_mem d h

/-- Claim C9: the overall status of a run is the maximum of the collected
per-task status codes, 0 when there are none; in particular
[0, 0, 3, 0] gives 3 and the empty list gives 0. -/
theorem c9_overall_status (l : List Int) :
    overall_status [] = 0 ∧ overall_status [0, 0, 3, 0] = 3 ∧
    (l ≠ [] → overall_status l ∈ l ∧ ∀ x ∈ l, x ≤ overall_status l) := by
  refine ⟨rfl, by decide, ?_⟩
  intro hne
  match l, hne with
  | c :: cs, _ =>
    have hos : overall_status (c :: cs) = cs.foldl max c := rfl
    constructor
    · rw [hos]
      rcases foldl_max_mem cs c with h | h
      · rw [h]; exact List.mem_cons_self c cs
      · exact List.mem_cons_of_mem c h
    · intro x hx
      rw [hos]
      rcases List.mem_cons.mp hx with rfl | hmem
      · exact le_foldl_max cs x
      · exact mem_le_foldl_max cs c x hmem

/-- Witness for C9 on the concrete status list of the claim. -/
theorem c9_overall_status_witness :
    overall_status [0, 0, 3, 0] ∈ ([0, 0, 3, 0] : List Int) :=
  ((c9_overall_status [0, 0, 3, 0]).2.2 (by decide)).1

theorem foldl_parseStep_pair (st : ParseState) (k v : String) (hst : st.is_key = true)
    (hk : k ≠ "=") (hv : v ≠ "=") :
    [k, "=", v].foldl parseStep st
      = ⟨true, some k, dictInsert st.environ (some k) v⟩ := by
  simp only [List.foldl_cons, List.foldl_nil]
  unfold parseStep
  simp [hk, hv, hst]

theorem foldl_parseStep_pairs (ps : List (String × String)) (st : ParseState)
    (hst : st.is_key = true)
    (hps : ∀ kv ∈ ps, kv.1 ≠ "=" ∧ kv.2 ≠ "=") :
    ∃ ck, (pairTokens ps).foldl parseStep st
      = ⟨true, ck, ps.foldl (fun d kv => dictInsert d (some kv.1) kv.2) st.environ⟩ := by
  induction ps generalizing st with
  | nil =>
    refine ⟨st.current_key, ?_⟩
    simp only [pairTokens, List.flatMap_nil, List.foldl_nil]
    cases st
    simp_all
  | cons kv rest ih =>
    have hkv := hps kv (List.mem_cons_self kv rest)
    have hpt : pairTokens (kv :: rest) = [kv.1, "=", kv.2] ++ pairTokens rest := by
      simp [pairTokens, List.flatMap_cons]
    rw [hpt, List.foldl_append, foldl_parseStep_pair st kv.1 kv.2 hst hkv.1 hkv.2]
    have := ih ⟨true, some kv.1, dictInsert st.environ (some kv.1) kv.2⟩ rfl
      (fun q hq => hps q (List.mem_cons_of_mem kv hq))
    simpa using this

theorem parseTokens_pairs (ps : List (String × String))
    (hps : ∀ kv ∈ ps, kv.1 ≠ "=" ∧ kv.2 ≠ "=") :
    parseTokens (pairTokens ps)
      = ps.foldl (fun d kv => dictInsert d (some kv.1) kv.2) [] := by
  rcases foldl_parseStep_pairs ps parseInit rfl hps with ⟨ck, h⟩
  unfold parseTokens
  rw [h]
  rfl

/-- Claim C3: the parameter-line parser keeps quoted values with spaces as
one value, inserts each key=value pair (a later duplicate key
overwriting the earlier binding, shown for an arbitrary well-formed pair
stream), and returns the empty mapping on the empty string; the two
example lines of the spec parse as stated. -/
theorem c3_parse_parameters (ps : List (String × String)) (k v : String)
    (hps : ∀ kv ∈ ps, kv.1 ≠ "=" ∧ kv.2 ≠ "=") (hk : k ≠ "=") (hv : v ≠ "=") :
    parse_parameters "" = some [] ∧
    parse_parameters "VAR1=VAL1 VAR2=VAL2 VAR3=VAL3"
      = some [(some "VAR1", "VAL1"), (some "VAR2", "VAL2"), (some "VAR3", "VAL3")] ∧
    parse_parameters "VAR1=\"a b\"" = some [(some "VAR1", "a b")] ∧
    parseTokens (pairTokens ps)
      = ps.foldl (fun d kv => dictInsert d (some kv.1) kv.2) [] ∧
    dictGet (parseTokens (pairTokens (ps ++ [(k, v)]))) (some k) = some v := by
  refine ⟨by decide, by decide, by decide, parseTokens_pairs ps hps, ?_⟩
  have hps2 : ∀ kv ∈ ps ++ [(k, v)], kv.1 ≠ "=" ∧ kv.2 ≠ "=" := by
    intro kv hkv
    rcases List.mem_append.mp hkv with h | h
    · exact hps kv h
    · rcases List.mem_singleton.mp h with rfl
      exact ⟨hk, hv⟩
  rw [parseTokens_pairs _ hps2, List.foldl_append]
  simp only [List.foldl_cons, List.foldl_nil]
  exact dictGet_dictInsert_self _ _ _

/-- Witness for C3: a duplicate key takes the later value. -/
theorem c3_parse_parameters_witness :
    dictGet (parseTokens (pairTokens ([("A", "1")] ++ [("A", "2")]))) (some "A")
      = some "2" :=
  (c3_parse_parameters [("A", "1")] "A" "2" (by decide) (by decide) (by decide)).2.2.2.2

/-- Claim C10: a trailing key token never followed by an equals sign and a
value is dropped silently: the parse of A=B C is exactly the mapping of
A to B, and appending one non-equals token to any token stream that left
the parser in key position does not change the resulting mapping. -/
theorem c10_dangling_key (ts : List String) (tok : String) (htok : tok ≠ "=")
    (hst : (ts.foldl parseStep parseInit).is_key = true) :
    parse_parameters "A=B C" = some [(some "A", "B")] ∧
    parseTokens (ts ++ [tok]) = parseTokens ts := by
  refine ⟨by decide, ?_⟩
  unfold parseTokens
  rw [List.foldl_append]
  simp only [List.foldl_cons, List.foldl_nil]
  set st := ts.foldl parseStep parseInit with hstdef
  unfold parseStep
  simp [htok, hst]

/-- Witness for C10 on the token stream of A=B C. -/
theorem c10_dangling_key_witness :
    parseTokens (["A", "=", "B"] ++ ["C"]) = parseTokens ["A", "=", "B"] :=
  (c10_dangling_key ["A", "=", "B"] "C" (by decide) (by decide)).2

theorem mapM_option_length {α β : Type} (f : α → Option β) (l : List α) (r : List β)
    (h : l.mapM f = some r) : r.length = l.length := by
  induction l generalizing r with
  | nil =>
    rw [List.mapM_nil] at h
    cases h
    rfl
  | cons a as ih =>
    rw [List.mapM_cons] at h
    cases hfa : f a with
    | none => rw [hfa] at h; simp at h
    | some b =>
      rw [hfa] at h
      cases hm : as.mapM f with
      | none => rw [hm] at h; simp at h
      | some bs =>
        rw [hm] at h
        simp only [Option.bind_eq_bind, Option.some_bind, Option.pure_def,
          Option.some.injEq] at h
        rw [← h]
        simp [ih bs hm]

theorem mapM_option_getElem {α β : Type} (f : α → Option β) (l : List α) (r : List β)
    (h : l.mapM f = some r) (i : Nat) : r[i]? = l[i]?.bind f := by
  induction l generalizing r i with
  | nil =>
    rw [List.mapM_nil] at h
    cases h
    simp
  | cons a as ih =>
    rw [List.mapM_cons] at h
    cases hfa : f a with
    | none => rw [hfa] at h; simp at h
    | some b =>
      rw [hfa] at h
      cases hm : as.mapM f with
      | none => rw [hm] at h; simp at h
      | some bs =>
        rw [hm] at h
        simp only [Option.bind_eq_bind, Option.some_bind, Option.pure_def,
          Option.some.injEq] at h
        rw [← h]
        cases i with
        | zero => simp [hfa]
        | succ i2 => simpa using ih bs hm i2

theorem shlexCore_spaces (cs : List Char) (h : cs.all isSpaceChar = true) :
    shlexCore cs .ground = some [] := by
  induction cs with
  | nil => rfl
  | cons c cs ih =>
    rw [List.all_cons, Bool.and_eq_true] at h
    unfold shlexCore
    rw [if_pos h.1]
    exact ih h.2

theorem parse_parameters_blank (line : String) (h : line.data.all isSpaceChar = true) :
    parse_parameters line = some [] := by
  unfold parse_parameters shlexTokens
  rw [shlexCore_spaces _ h]
  rfl

/-- Claim C4: the parameter-file parser returns one empty ParameterSet for
None; for a file it returns one ParameterSet per line in order, the count
equal to the line count, and a line of only whitespace gives an empty
mapping rather than being omitted. -/
theorem c4_parameter_file (lines : List String) (pss : List (List (Option String × String)))
    (h : parse_parameter_file (some lines) = some pss) :
    parse_parameter_file none = some [[]] ∧
    pss.length = lines.length ∧
    (∀ i : Nat, pss[i]? = lines[i]?.bind parse_parameters) ∧
    (∀ (i : Nat) (line : String), lines[i]? = some line →
      line.data.all isSpaceChar = true → pss[i]? = some []) := by
  have hm : lines.mapM parse_parameters = some pss := h
  refine ⟨rfl, mapM_option_length _ _ _ hm, mapM_option_getElem _ _ _ hm, ?_⟩
  intro i line hline hblank
  rw [mapM_option_getElem _ _ _ hm i, hline]
  simpa using parse_parameters_blank line hblank

/-- Witness for C4 on a three-line file with a blank middle line. -/
theorem c4_parameter_file_witness :
    ([[(some "A", "1")], [], [(some "B", "2"), (some "JUPYTER_OUTPUT_SUFFIX", "x")]] :
        List (List (Option String × String))).length
      = (["A=1", "", "B=2 JUPYTER_OUTPUT_SUFFIX=x"] : List String).length :=
  (c4_parameter_file ["A=1", "", "B=2 JUPYTER_OUTPUT_SUFFIX=x"]
    [[(some "A", "1")], [], [(some "B", "2"), (some "JUPYTER_OUTPUT_SUFFIX", "x")]]
    (by decide)).2.1

theorem mkTask_eq_some (parameter_file : Option (List String)) (output_dir : String)
    (debug overwrite : Bool) (output_format timeout : String)
    (allow_errors hide_input : Bool) (locked_wait : Nat) (ext : String)
    (param_id : Nat) (params : List (Option String × String)) (notebook : String)
    (he : MAP_OUTPUT_EXTENSION output_format = some ext) :
    mkTask parameter_file output_dir debug overwrite output_format timeout
        allow_errors hide_input locked_wait param_id params notebook
      = some (plannedTask parameter_file output_dir debug overwrite output_format timeout
          allow_errors hide_input locked_wait ext param_id params notebook) := by
  unfold mkTask plannedTask
  rw [he]
  rfl

theorem mapM_option_of_map {α β : Type} (f : α → Option β) (g : α → β) (l : List α)
    (h : ∀ a ∈ l, f a = some (g a)) : l.mapM f = some (l.map g) := by
  induction l with
  | nil => rfl
  | cons a as ih =>
    rw [List.mapM_cons, h a (List.mem_cons_self a as),
        ih (fun b hb => h b (List.mem_cons_of_mem a hb))]
    rfl

theorem get_tasks_eq (parameter_file : Option (List String))
    (pss : List (List (Option String × String))) (notebooks : List String)
    (output_dir : String) (debug overwrite : Bool) (output_format timeout : String)
    (allow_errors hide_input : Bool) (locked_wait : Nat) (ext : String)
    (hp : parse_parameter_file parameter_file = some pss)
    (he : MAP_OUTPUT_EXTENSION output_format = some ext) :
    get_tasks parameter_file notebooks output_dir debug overwrite output_format timeout
        allow_errors hide_input locked_wait
      = some ((taskPairs pss notebooks).map
          (fun x => plannedTask parameter_file output_dir debug overwrite output_format
            timeout allow_errors hide_input locked_wait ext x.1.1 x.1.2 x.2)) := by
  unfold get_tasks
  rw [hp]
  simp only [Option.bind_eq_bind, Option.some_bind]
  exact mapM_option_of_map _ _ _
    (fun x _ => mkTask_eq_some parameter_file output_dir debug overwrite output_format
      timeout allow_errors hide_input locked_wait ext x.1.1 x.1.2 x.2 he)

theorem taskPairs_length (pss : List (List (Option String × String)))
    (notebooks : List String) :
    (taskPairs pss notebooks).length = pss.length * notebooks.length := by
  unfold taskPairs
  rw [List.length_flatMap]
  have h1 : List.map (List.length ∘ fun pi => notebooks.map (fun nb => (pi, nb))) pss.enum
      = List.map (fun _ => notebooks.length) pss.enum :=
    List.map_congr_left (fun a _ => by simp [Function.comp])
  rw [h1, List.map_const', List.sum_replicate, smul_eq_mul, List.enum_length]

theorem flatMap_uniform_getElem {α β : Type} (l : List α) (f : α → List β) (N : Nat)
    (hN : ∀ a, (f a).length = N) (i j : Nat) (hj : j < N) :
    (l.flatMap f)[i * N + j]? = l[i]?.bind (fun a => (f a)[j]?) := by
  induction l generalizing i with
  | nil => simp
  | cons a as ih =>
    rw [List.flatMap_cons, List.getElem?_append]
    cases i with
    | zero =>
      have hn : 0 * N + j = j := by ring
      rw [hn, if_pos (by rw [hN a]; exact hj)]
      simp
    | succ i2 =>
      have hlen : (f a).length = N := hN a
      have hidx : (i2 + 1) * N + j = N + (i2 * N + j) := by ring
      have hnot : ¬ ((i2 + 1) * N + j < (f a).length) := by rw [hlen, hidx]; omega
      have hsub : (i2 + 1) * N + j - (f a).length = i2 * N + j := by rw [hlen, hidx]; omega
      rw [if_neg hnot, hsub, ih i2]
      simp

theorem taskPairs_getElem (pss : List (List (Option String × String)))
    (notebooks : List String) (i j : Nat) (hj : j < notebooks.length) :
    (taskPairs pss notebooks)[i * notebooks.length + j]?
      = pss[i]?.bind (fun params => notebooks[j]?.map (fun nb => ((i, params), nb))) := by
  unfold taskPairs
  rw [flatMap_uniform_getElem _ _ notebooks.length (by simp) i j hj]
  rw [List.getElem?_enum]
  cases hpi : pss[i]? with
  | none => simp
  | some params => simp

/-- Claim C1: get_tasks emits one task per (parameter set, notebook) pair:
K parameter sets and N notebooks give exactly K times N tasks, the
parameter index as the outer loop and the notebook as the inner loop (the
task at position i times N plus j carries parameter set i and notebook j),
and with no parameter file there is a single empty parameter set and the
count is exactly N. -/
theorem c1_task_plan (parameter_file : Option (List String))
    (pss : List (List (Option String × String))) (notebooks : List String)
    (output_dir : String) (debug overwrite : Bool) (output_format timeout : String)
    (allow_errors hide_input : Bool) (locked_wait : Nat) (ext : String)
    (hp : parse_parameter_file parameter_file = some pss)
    (he : MAP_OUTPUT_EXTENSION output_format = some ext) :
    ∃ ts : List Task,
      get_tasks parameter_file notebooks output_dir debug overwrite output_format timeout
          allow_errors hide_input locked_wait = some ts ∧
      ts.length = pss.length * notebooks.length ∧
      (∀ lines : List String, parameter_file = some lines →
        ts.length = lines.length * notebooks.length) ∧
      (parameter_file = none → pss = [[]] ∧ ts.length = notebooks.length) ∧
      (∀ i j : Nat, ∀ hi : i < pss.length, ∀ hj : j < notebooks.length,
        ∃ t : Task, ts[i * notebooks.length + j]? = some t ∧
          t.parameters = pss.get ⟨i, hi⟩ ∧ t.notebook = notebooks.get ⟨j, hj⟩) := by
  refine ⟨_, get_tasks_eq parameter_file pss notebooks output_dir debug overwrite
    output_format timeout allow_errors hide_input locked_wait ext hp he, ?_, ?_, ?_, ?_⟩
  · rw [List.length_map, taskPairs_length]
  · intro lines hlines
    subst hlines
    have hlen : pss.length = lines.length :=
      mapM_option_length parse_parameters lines pss hp
    rw [List.length_map, taskPairs_length, hlen]
  · intro hnone
    subst hnone
    have : pss = [[]] := by
      have : (some [[]] : Option (List (List (Option String × String)))) = some pss := hp
      exact (Option.some.injEq _ _ ▸ this).symm
    refine ⟨this, ?_⟩
    rw [List.length_map, taskPairs_length, this]
    simp
  · intro i j hi hj
    refine ⟨plannedTask parameter_file output_dir debug overwrite output_format timeout
      allow_errors hide_input locked_wait ext i (pss.get ⟨i, hi⟩) (notebooks.get ⟨j, hj⟩),
      ?_, rfl, rfl⟩
    rw [List.getElem?_map, taskPairs_getElem pss notebooks i j hj]
    rw [List.getElem?_eq_getElem hi, List.getElem?_eq_getElem hj]
    rfl

/-- Witness for C1: two parameter lines and two notebooks give four
tasks. -/
theorem c1_task_plan_witness :
    ∃ ts : List Task,
      get_tasks (some ["X=1", "X=2"]) ["A.ipynb", "B.ipynb"] "/out" false false "html"
        "-1" false false 0 = some ts ∧ ts.length = 4 := by
  obtain ⟨ts, hts, hlen, -, -, -⟩ := c1_task_plan (some ["X=1", "X=2"])
    [[(some "X", "1")], [(some "X", "2")]] ["A.ipynb", "B.ipynb"] "/out" false false
    "html" "-1" false false 0 "html" (by decide) (by decide)
  exact ⟨ts, hts, by simpa using hlen⟩

theorem plannedTask_output_file (parameter_file : Option (List String)) (output_dir : String)
    (debug overwrite : Bool) (output_format timeout : String)
    (allow_errors hide_input : Bool) (locked_wait : Nat) (ext : String)
    (param_id : Nat) (params : List (Option String × String)) (notebook : String)
    (he : MAP_OUTPUT_EXTENSION output_format = some ext) :
    (plannedTask parameter_file output_dir debug overwrite output_format timeout
        allow_errors hide_input locked_wait ext param_id params notebook).output_file
      = specOutputPath output_dir notebook
          (specSuffix parameter_file.isSome params (param_id + 1))
          ((specExtension output_format).getD "") := by
  unfold plannedTask specOutputPath specSuffix specExtension
  rw [he]
  cases parameter_file <;> by_cases hext : ext = "" <;> simp [hext]

/-- Claim C2: every planned destination path is the output directory
joined with the notebook base name without its extension, the suffix
selected per the spec (empty without a parameter file, underscore plus
the override value when the reserved key JUPYTER_OUTPUT_SUFFIX is set,
underscore plus the 1-based parameter index otherwise) and the dotted
extension from the format table, or no extension when the table maps the
format to the empty string; in particular format html on notebook A.ipynb
with no parameter file and output directory /xxx yields exactly
/xxx/A.html. -/
theorem c2_output_path (parameter_file : Option (List String))
    (pss : List (List (Option String × String))) (notebooks : List String)
    (output_dir : String) (debug overwrite : Bool) (output_format timeout : String)
    (allow_errors hide_input : Bool) (locked_wait : Nat) (ext : String)
    (hp : parse_parameter_file parameter_file = some pss)
    (he : MAP_OUTPUT_EXTENSION output_format = some ext) :
    (∃ ts : List Task,
      get_tasks parameter_file notebooks output_dir debug overwrite output_format timeout
          allow_errors hide_input locked_wait = some ts ∧
      (∀ i j : Nat, ∀ hi : i < pss.length, ∀ hj : j < notebooks.length,
        ∃ t : Task, ts[i * notebooks.length + j]? = some t ∧
          t.output_file = specOutputPath output_dir (notebooks.get ⟨j, hj⟩)
            (specSuffix parameter_file.isSome (pss.get ⟨i, hi⟩) (i + 1))
            ((specExtension output_format).getD ""))) ∧
    (get_tasks none ["A.ipynb"] "/xxx" false false "html" "-1" false false 0).map
        (List.map Task.output_file) = some ["/xxx/A.html"] := by
  refine ⟨⟨_, get_tasks_eq parameter_file pss notebooks output_dir debug overwrite
    output_format timeout allow_errors hide_input locked_wait ext hp he, ?_⟩, by decide⟩
  intro i j hi hj
  refine ⟨plannedTask parameter_file output_dir debug overwrite output_format timeout
    allow_errors hide_input locked_wait ext i (pss.get ⟨i, hi⟩) (notebooks.get ⟨j, hj⟩),
    ?_, plannedTask_output_file parameter_file output_dir debug overwrite output_format
      timeout allow_errors hide_input locked_wait ext i _ _ he⟩
  rw [List.getElem?_map, taskPairs_getElem pss notebooks i j hj]
  rw [List.getElem?_eq_getElem hi, List.getElem?_eq_getElem hj]
  rfl

/-- Witness for C2: the concrete output filename of the spec example. -/
theorem c2_output_path_witness :
    (get_tasks none ["A.ipynb"] "/xxx" false false "html" "-1" false false 0).map
      (List.map Task.output_file) = some ["/xxx/A.html"] :=
  (c2_output_path none [[]] ["A.ipynb"] "/xxx" false false "html" "-1" false false 0
    "html" rfl rfl).2

end JupyterRunner
